import Mathlib

/-!
Verification of the terrain example (src/examples/terrain/main.rs).

The file shallowly embeds the core of the terrain program:
the elevation colorizer `calculate_color`, the terrain mesh builder
(grid vertices, triangulated index list), the orbiting camera, and the
per-frame render pass expressed as explicit state passing plus a list of
backend requests.  Rust `f32` values are modelled as exact rationals; for
the colorizer, whose comparisons must also be checked on non-finite
inputs, a dedicated type `F32` with NaN and infinities is used, with the
IEEE-754 rule that every ordered comparison against NaN is false.
-/

namespace Terrain

/-- Model of an `f32` as used by the colorizer: a finite rational,
NaN, or an infinity.  Every finite `f32` is an exact rational, and the
thresholds 8.0, 0.0, -5.0 in the source are exactly representable. -/
inductive F32 where
  | nan : F32
  | inf : F32
  | ninf : F32
  | fin : ℚ → F32
  deriving DecidableEq

/-- The Rust `>` operator on `f32`: any comparison involving NaN is
false; infinities compare in the usual way; finite values compare as
rationals. -/
def F32.gt : F32 → F32 → Bool
  | .nan, _ => false
  | _, .nan => false
  | .inf, .inf => false
  | .inf, _ => true
  | _, .inf => false
  | .ninf, _ => false
  | _, .ninf => true
  | .fin a, .fin b => decide (a > b)

/-- `calculate_color` from src/examples/terrain/main.rs, lines 57-67:
nested `if height > c` tests evaluated top-down, first match wins. -/
def calculate_color (height : F32) : ℚ × ℚ × ℚ :=
  if height.gt (.fin 8) then (0.9, 0.9, 0.9)
  else if height.gt (.fin 0) then (0.7, 0.7, 0.7)
  else if height.gt (.fin (-5)) then (0.2, 0.7, 0.2)
  else (0.2, 0.2, 0.7)

/-- Claim C2: the elevation colorizer is a pure piecewise function of
height, evaluated top-down with the first matching band winning, using
strict `>` comparisons: height > 8 gives (0.9,0.9,0.9); 0 < height ≤ 8
gives (0.7,0.7,0.7); -5 < height ≤ 0 gives (0.2,0.7,0.2);
height ≤ -5 gives (0.2,0.2,0.7).  In particular height 9 maps to
(0.9,0.9,0.9), height exactly 8 maps to (0.7,0.7,0.7), and height
exactly 0 maps to (0.2,0.7,0.2). -/
theorem calculate_color_bands (h : ℚ) :
    (h > 8 → calculate_color (.fin h) = (0.9, 0.9, 0.9)) ∧
    (0 < h ∧ h ≤ 8 → calculate_color (.fin h) = (0.7, 0.7, 0.7)) ∧
    (-5 < h ∧ h ≤ 0 → calculate_color (.fin h) = (0.2, 0.7, 0.2)) ∧
    (h ≤ -5 → calculate_color (.fin h) = (0.2, 0.2, 0.7)) ∧
    calculate_color (.fin 9) = (0.9, 0.9, 0.9) ∧
    calculate_color (.fin 8) = (0.7, 0.7, 0.7) ∧
    calculate_color (.fin 0) = (0.2, 0.7, 0.2) := by
  refine ⟨?_, ?_, ?_, ?_, by norm_num [calculate_color, F32.gt],
    by norm_num [calculate_color, F32.gt], by norm_num [calculate_color, F32.gt]⟩
  · intro hgt
    simp [calculate_color, F32.gt, hgt]
  · rintro ⟨h0, h8⟩
    have : ¬ (h > 8) := by linarith
    simp [calculate_color, F32.gt, this, h0]
  · rintro ⟨h5, h0⟩
    have h8 : ¬ (h > 8) := by linarith
    have h0n : ¬ (h > 0) := by linarith
    simp [calculate_color, F32.gt, h8, h0n, h5]
  · intro h5
    have h8 : ¬ (h > 8) := by linarith
    have h0n : ¬ (h > 0) := by linarith
    have h5n : ¬ (h > -5) := by linarith
    simp [calculate_color, F32.gt, h8, h0n, h5n]

/-- Witness for C2 at the concrete height 9. -/
theorem calculate_color_bands_witness :
    (9 : ℚ) > 8 ∧ calculate_color (.fin 9) = (0.9, 0.9, 0.9) :=
  ⟨by norm_num, (calculate_color_bands 9).1 (by norm_num)⟩

/-- Claim C10: for a NaN height the colorizer returns the water color
(0.2,0.2,0.7): every strict `>` comparison against NaN is false, so
evaluation falls through all three guarded bands to the final else
branch; the function is total over all `F32` inputs, non-finite ones
included. -/
theorem calculate_color_nan :
    calculate_color .nan = (0.2, 0.2, 0.7) ∧
    (∀ x : F32, F32.gt .nan x = false ∧ F32.gt x .nan = false) ∧
    (∀ x : F32, ∃ c : ℚ × ℚ × ℚ, calculate_color x = c) := by
  refine ⟨by simp [calculate_color, F32.gt], ?_, fun x => ⟨calculate_color x, rfl⟩⟩
  intro x
  cases x <;> simp [F32.gt]

/-! ## Terrain mesh builder

The source builds the mesh by mapping over `genmesh::generators::Plane`
iterators (`shared_vertex_iter`, `indexed_polygon_iter().triangulate()`),
crates outside this repository.  The grid scan and triangulation are
therefore modelled from the spec (section 4.2): row-major scan with `j`
outer and `i` inner, normalized coordinates `x = i/W`, `y = j/H`, height
`h = noise(x,y) * amplitude`, world position `(scale*x, scale*y, h)`,
and two triangles per grid cell with a consistent winding.  The noise
sample is an arbitrary function `ℚ → ℚ → ℚ`, matching the spec contract
of section 4.1 (a pure, deterministic function of seed and coordinates).
-/

structure Vertex where
  pos : ℚ × ℚ × ℚ
  color : ℚ × ℚ × ℚ
  deriving DecidableEq

/-- Modelled from the spec: the vertex emitted at grid point `(i, j)`
(spec 4.2 steps 2-4; the source delegates the grid scan to genmesh,
which is not part of this repository). -/
def gridVertex (noise : ℚ → ℚ → ℚ) (W H : ℕ) (scale amplitude : ℚ)
    (i j : ℕ) : Vertex :=
  let x : ℚ := (i : ℚ) / (W : ℚ)
  let y : ℚ := (j : ℚ) / (H : ℚ)
  let h : ℚ := noise x y * amplitude
  { pos := (scale * x, scale * y, h), color := calculate_color (.fin h) }

/-- Modelled from the spec: the vertex list, in row-major scan order
with `j` outer and `i` inner (spec 4.2 step 5). -/
def buildVertices (noise : ℚ → ℚ → ℚ) (W H : ℕ) (scale amplitude : ℚ) :
    List Vertex :=
  (List.range (H + 1)).flatMap fun j =>
    (List.range (W + 1)).map fun i => gridVertex noise W H scale amplitude i j

/-- Modelled from the spec: the six indices of the two triangles
covering grid cell `(i, j)` (spec 4.2 step 6), with a consistent
winding; the vertex at grid point `(i, j)` has index `j*(W+1) + i`. -/
def quadIndices (W i j : ℕ) : List ℕ :=
  let a := j * (W + 1) + i
  let b := j * (W + 1) + (i + 1)
  let c := (j + 1) * (W + 1) + (i + 1)
  let d := (j + 1) * (W + 1) + i
  [a, b, c, a, c, d]

/-- Modelled from the spec: the triangle-list index sequence, one quad
per grid cell. -/
def buildIndices (W H : ℕ) : List ℕ :=
  (List.range H).flatMap fun j =>
    (List.range W).flatMap fun i => quadIndices W i j

inductive TerrainError where
  | InvalidGridSize : TerrainError
  deriving DecidableEq

structure TerrainMesh where
  vertices : List Vertex
  indices : List ℕ
  deriving DecidableEq

/-- Modelled from the spec: mesh construction fails with
`InvalidGridSize` when `W < 1` or `H < 1` (spec 4.2 failure clause;
the source has no explicit validation because it only ever builds the
fixed 256 x 256 grid). -/
def buildTerrainMesh (noise : ℚ → ℚ → ℚ) (W H : ℕ) (scale amplitude : ℚ) :
    Except TerrainError TerrainMesh :=
  if W < 1 ∨ H < 1 then .error .InvalidGridSize
  else .ok { vertices := buildVertices noise W H scale amplitude
             indices := buildIndices W H }

/-- Length of a flatMap over `List.range` whose rows all have the same
length. -/
theorem length_flatMap_range {α : Type} (f : ℕ → List α) (L : ℕ)
    (n : ℕ) (hL : ∀ k < n, (f k).length = L) :
    ((List.range n).flatMap f).length = n * L := by
  induction n with
  | zero => simp
  | succ m ih =>
    rw [List.range_succ, List.flatMap_append, List.length_append,
      ih (fun k hk => hL k (Nat.lt_succ_of_lt hk))]
    simp [hL m (Nat.lt_succ_self m)]
    ring

/-- Indexing into a flatMap over `List.range` whose rows all have the
same length: position `j * L + i` lands at offset `i` of row `j`. -/
theorem getElem?_flatMap_range {α : Type} (f : ℕ → List α) (L : ℕ)
    (n i j : ℕ) (hL : ∀ k < n, (f k).length = L) (hj : j < n) (hi : i < L) :
    ((List.range n).flatMap f)[j * L + i]? = (f j)[i]? := by
  induction n with
  | zero => omega
  | succ m ih =>
    rw [List.range_succ, List.flatMap_append]
    rcases Nat.lt_or_ge j m with hjm | hjm
    · rw [List.getElem?_append_left]
      · exact ih (fun k hk => hL k (Nat.lt_succ_of_lt hk)) hjm
      · rw [length_flatMap_range f L m (fun k hk => hL k (Nat.lt_succ_of_lt hk))]
        have : j + 1 ≤ m := hjm
        calc j * L + i < j * L + L := by omega
          _ = (j + 1) * L := by ring
          _ ≤ m * L := Nat.mul_le_mul_right L this
    · have hjeq : j = m := by omega
      subst hjeq
      rw [List.getElem?_append_right]
      · rw [length_flatMap_range f L j (fun k hk => hL k (Nat.lt_succ_of_lt hk))]
        simp
      · rw [length_flatMap_range f L j (fun k hk => hL k (Nat.lt_succ_of_lt hk))]
        omega

theorem buildVertices_length (noise : ℚ → ℚ → ℚ) (W H : ℕ)
    (scale amplitude : ℚ) :
    (buildVertices noise W H scale amplitude).length = (W + 1) * (H + 1) := by
  rw [buildVertices, length_flatMap_range _ (W + 1) (H + 1) (by simp)]
  ring

theorem buildIndices_length (W H : ℕ) :
    (buildIndices W H).length = 6 * (W * H) := by
  rw [buildIndices, length_flatMap_range _ (6 * W) H ?_]
  · ring
  · intro k _
    rw [length_flatMap_range _ 6 W ?_]
    · ring
    · intro i _
      simp [quadIndices]

/-- Claim C1: for every valid grid resolution `(W,H)` the terrain mesh
produced at construction has exactly `(W+1)*(H+1)` vertices and exactly
`6*W*H` indices. -/
theorem terrain_mesh_counts (noise : ℚ → ℚ → ℚ) (scale amplitude : ℚ)
    (W H : ℕ) (hW : 1 ≤ W) (hH : 1 ≤ H) :
    ∃ m, buildTerrainMesh noise W H scale amplitude = .ok m ∧
      m.vertices.length = (W + 1) * (H + 1) ∧
      m.indices.length = 6 * (W * H) := by
  refine ⟨{ vertices := buildVertices noise W H scale amplitude
            indices := buildIndices W H },
    ?_, buildVertices_length noise W H scale amplitude,
    buildIndices_length W H⟩
  rw [buildTerrainMesh, if_neg (by omega)]

/-- Witness for C1 at the grid the builder uses, `W = H = 256`: 66049
vertices and 393216 indices. -/
theorem terrain_mesh_counts_witness :
    ∃ m, buildTerrainMesh (fun _ _ => 0) 256 256 25 32 = .ok m ∧
      m.vertices.length = 66049 ∧ m.indices.length = 393216 := by
  obtain ⟨m, hm, hv, hi⟩ :=
    terrain_mesh_counts (fun _ _ => 0) 25 32 256 256 (by norm_num) (by norm_num)
  exact ⟨m, hm, by rw [hv], by rw [hi]⟩

/-- Claim C4: every element of the index sequence is a valid vertex
index (`k < vertex count = (W+1)*(H+1)`), and the number of indices is
a multiple of 3. -/
theorem index_bounds (W H : ℕ) :
    (∀ k ∈ buildIndices W H, k < (W + 1) * (H + 1)) ∧
    (buildIndices W H).length % 3 = 0 := by
  constructor
  · intro k hk
    simp only [buildIndices, quadIndices, List.mem_flatMap, List.mem_range] at hk
    obtain ⟨j, hj, i, hi, hk⟩ := hk
    simp only [List.mem_cons, List.not_mem_nil, or_false] at hk
    rcases hk with rfl | rfl | rfl | rfl | rfl | rfl <;> nlinarith
  · rw [buildIndices_length]
    omega

/-- Witness for C4: index 5 of the 1 x 1 grid mesh is in bounds. -/
theorem index_bounds_witness :
    3 ∈ buildIndices 1 1 ∧ 3 < (1 + 1) * (1 + 1) :=
  ⟨by decide, (index_bounds 1 1).1 3 (by decide)⟩

/-- Claim C5: mesh generation is deterministic in the seed: with the
same noise field, seed, grid resolution, scale and amplitude, two
successful constructions yield identical vertex sequences and identical
index sequences. -/
theorem mesh_determinism (noise : ℕ → ℚ → ℚ → ℚ) (seed : ℕ)
    (W H : ℕ) (scale amplitude : ℚ) (m₁ m₂ : TerrainMesh)
    (h₁ : buildTerrainMesh (noise seed) W H scale amplitude = .ok m₁)
    (h₂ : buildTerrainMesh (noise seed) W H scale amplitude = .ok m₂) :
    m₁.vertices = m₂.vertices ∧ m₁.indices = m₂.indices := by
  have : Except.ok (ε := TerrainError) m₁ = .ok m₂ := h₁.symm.trans h₂
  cases this
  exact ⟨rfl, rfl⟩

def mesh11 : TerrainMesh :=
  { vertices := buildVertices (fun _ _ => 0) 1 1 25 32
    indices := buildIndices 1 1 }

/-- Witness for C5 on the 1 x 1 grid with the zero noise field. -/
theorem mesh_determinism_witness :
    buildTerrainMesh ((fun _ => fun _ _ => (0 : ℚ)) 0) 1 1 25 32 = .ok mesh11 ∧
    mesh11.vertices = mesh11.vertices ∧ mesh11.indices = mesh11.indices :=
  ⟨rfl, mesh_determinism (fun _ => fun _ _ => 0) 0 1 1 25 32 mesh11 mesh11 rfl rfl⟩

/-- Claim C3: the vertex at grid point `(i, j)` sits at position
`j*(W+1) + i` of the vertex list and equals the record with normalized
coordinates `x = i/W`, `y = j/H` (both in [0,1]), world position
`(25*x, 25*y, h)`, height `h = noise x y * 32`, and color
`calculate_color h`. -/
theorem vertex_formula (noise : ℚ → ℚ → ℚ) (W H i j : ℕ)
    (hW : 1 ≤ W) (hH : 1 ≤ H) (hi : i ≤ W) (hj : j ≤ H) :
    (buildVertices noise W H 25 32)[j * (W + 1) + i]? =
      some { pos := (25 * ((i : ℚ) / (W : ℚ)), 25 * ((j : ℚ) / (H : ℚ)),
                     noise ((i : ℚ) / (W : ℚ)) ((j : ℚ) / (H : ℚ)) * 32)
             color := calculate_color
               (.fin (noise ((i : ℚ) / (W : ℚ)) ((j : ℚ) / (H : ℚ)) * 32)) } ∧
    0 ≤ (i : ℚ) / (W : ℚ) ∧ (i : ℚ) / (W : ℚ) ≤ 1 ∧
    0 ≤ (j : ℚ) / (H : ℚ) ∧ (j : ℚ) / (H : ℚ) ≤ 1 := by
  have hW0 : (0 : ℚ) < (W : ℚ) := by exact_mod_cast hW
  have hH0 : (0 : ℚ) < (H : ℚ) := by exact_mod_cast hH
  refine ⟨?_, by positivity, ?_, by positivity, ?_⟩
  · rw [buildVertices,
      getElem?_flatMap_range _ (W + 1) (H + 1) i j (by simp) (by omega) (by omega),
      List.getElem?_map, List.getElem?_range (by omega)]
    simp [gridVertex]
  · rw [div_le_one hW0]
    exact_mod_cast hi
  · rw [div_le_one hH0]
    exact_mod_cast hj

/-- Witness for C3 at the 1 x 1 grid, grid point (0,0), zero noise. -/
theorem vertex_formula_witness :
    (buildVertices (fun _ _ => 0) 1 1 25 32)[0]? =
      some { pos := ((0 : ℚ), 0, 0), color := (0.2, 0.7, 0.2) } := by
  have h := (vertex_formula (fun _ _ => 0) 1 1 0 0 le_rfl le_rfl
    (Nat.zero_le 1) (Nat.zero_le 1)).1
  norm_num [calculate_color, F32.gt] at h ⊢
  exact h

/-! ## Camera and per-frame render pass

`App::render` (src/examples/terrain/main.rs, lines 135-156) computes the
eye from sin/cos of the time, builds a look-at view matrix, writes only
`self.data.view`, snapshots Locals, then issues (in program order)
`update_buffer`, `clear` of the color target to (0.3,0.3,0.3,1.0),
`clear_depth` to 1.0, and `draw`.  The look-at and perspective matrices
come from cgmath, outside this repository, and are modelled from the
spec as the standard right-handed constructions; the per-frame backend
calls are modelled as an explicit request list. -/

abbrev V3 := ℝ × ℝ × ℝ

abbrev M4 := Matrix (Fin 4) (Fin 4) ℝ

def vsub (a b : V3) : V3 := (a.1 - b.1, a.2.1 - b.2.1, a.2.2 - b.2.2)

def vdot (a b : V3) : ℝ := a.1 * b.1 + a.2.1 * b.2.1 + a.2.2 * b.2.2

def vcross (a b : V3) : V3 :=
  (a.2.1 * b.2.2 - a.2.2 * b.2.1,
   a.2.2 * b.1 - a.1 * b.2.2,
   a.1 * b.2.1 - a.2.1 * b.1)

noncomputable def vnormalize (a : V3) : V3 :=
  (a.1 / Real.sqrt (vdot a a), a.2.1 / Real.sqrt (vdot a a),
   a.2.2 / Real.sqrt (vdot a a))

/-- Modelled from the spec: standard right-handed look-at construction
(spec 4.4; the source delegates to the cgmath look_at, which is not
part of this repository). -/
noncomputable def lookAtRH (eye center up : V3) : M4 :=
  let f := vnormalize (vsub center eye)
  let s := vnormalize (vcross f up)
  let u := vcross s f
  !![s.1, s.2.1, s.2.2, -(vdot s eye);
     u.1, u.2.1, u.2.2, -(vdot u eye);
     -f.1, -f.2.1, -f.2.2, vdot f eye;
     0, 0, 0, 1]

/-- Modelled from the spec: perspective projection computed once at
startup from a field of view in degrees, aspect ratio and near/far
planes (spec data model; the source delegates to cgmath perspective,
which is not part of this repository). -/
noncomputable def perspectiveM (fovyDeg aspectRatio near far : ℝ) : M4 :=
  let f := 1 / Real.tan (fovyDeg * Real.pi / 360)
  !![f / aspectRatio, 0, 0, 0;
     0, f, 0, 0;
     0, 0, (near + far) / (near - far), 2 * near * far / (near - far);
     0, 0, -1, 0]

/-- The per-frame eye from the source: `x = sin t`, `y = cos t`,
`Point3::new(x * 32.0, y * 32.0, 16.0)`. -/
noncomputable def eyePos (t : ℝ) : V3 := (Real.sin t * 32, Real.cos t * 32, 16)

inductive CullFace where
  | front : CullFace
  | back : CullFace
  deriving DecidableEq

/-- The fixed-function state of the pipeline created in `App::new`:
back-face culling and the LESS_EQUAL_WRITE depth preset. -/
structure PipelineState where
  cull : CullFace
  depthLessEqualWrite : Bool
  deriving DecidableEq

/-- The `Locals` constant-buffer contents. -/
structure Locals where
  model : M4
  view : M4
  proj : M4

/-- The application state held by `App` across frames. -/
structure App where
  pso : PipelineState
  vertices : List Vertex
  indices : List ℕ
  model : M4
  view : M4
  proj : M4

/-- `App::new`: builds the mesh once, sets `model` and `view` to the
identity, and `proj` to the perspective matrix for a 60 degree field of
view, the given aspect ratio, near 0.1 and far 1000. -/
noncomputable def mkApp (noise : ℚ → ℚ → ℚ) (W H : ℕ) (aspectRatio : ℝ) :
    Except TerrainError App :=
  (buildTerrainMesh noise W H 25 32).map fun mesh =>
    { pso := { cull := .back, depthLessEqualWrite := true }
      vertices := mesh.vertices
      indices := mesh.indices
      model := 1
      view := 1
      proj := perspectiveM 60 aspectRatio (1 / 10) 1000 }

/-- One backend request issued during a frame. -/
inductive Request where
  | updateUniform : Locals → Request
  | clearColor : ℚ → ℚ → ℚ → ℚ → Request
  | clearDepth : ℚ → Request
  | draw : Request

/-- The `Locals` snapshot submitted during the frame at time `t`. -/
noncomputable def frameLocals (app : App) (t : ℝ) : Locals :=
  { model := app.model
    view := lookAtRH (eyePos t) (0, 0, 0) (0, 0, 1)
    proj := app.proj }

/-- `App::render` at time `t`: recompute the view matrix, write it into
the state, then issue the uniform update, color clear, depth clear and
draw, in program order. -/
noncomputable def render (app : App) (t : ℝ) : App × List Request :=
  let view := lookAtRH (eyePos t) (0, 0, 0) (0, 0, 1)
  let app' := { app with view := view }
  let locals : Locals := { model := app'.model, view := app'.view, proj := app'.proj }
  (app', [.updateUniform locals, .clearColor 0.3 0.3 0.3 1, .clearDepth 1, .draw])

/-- The application state after a sequence of frames. -/
noncomputable def runFrames (app : App) (ts : List ℝ) : App :=
  ts.foldl (fun a t => (render a t).1) app

/-- Startup followed by the frame loop: construction errors abort
before any frame runs, otherwise the frames execute in order and their
requests accumulate. -/
noncomputable def runSession (noise : ℚ → ℚ → ℚ) (W H : ℕ)
    (aspectRatio : ℝ) (ts : List ℝ) :
    Except TerrainError (App × List Request) :=
  (mkApp noise W H aspectRatio).map fun app =>
    ts.foldl (fun acc t => ((render acc.1 t).1, acc.2 ++ (render acc.1 t).2)) (app, [])

/-- Claim C6: the per-frame eye position is
`(radius * sin t, radius * cos t, height)` with radius 32 and height
16, the view matrix written by the frame is the right-handed look-at
from that eye toward the origin with up vector (0,0,1), and at `t = 0`
the eye is `(0, 32, 16)`. -/
theorem orbit_camera (app : App) (t : ℝ) :
    eyePos t = (32 * Real.sin t, 32 * Real.cos t, 16) ∧
    ((render app t).1).view = lookAtRH (eyePos t) (0, 0, 0) (0, 0, 1) ∧
    eyePos 0 = (0, 32, 16) := by
  refine ⟨?_, rfl, ?_⟩
  · simp [eyePos, mul_comm]
  · simp [eyePos]

/-- Claim C7: within a frame, the draw is preceded by the uniform
update carrying that frame's Locals snapshot, by the color clear to
(0.3,0.3,0.3,1.0), and by the depth clear to 1.0. -/
theorem render_ordering (app : App) (t : ℝ) :
    ∀ i, ((render app t).2)[i]? = some Request.draw →
      (∃ j : ℕ, j < i ∧
        ((render app t).2)[j]? = some (Request.updateUniform (frameLocals app t))) ∧
      (∃ j : ℕ, j < i ∧ ((render app t).2)[j]? = some (Request.clearColor 0.3 0.3 0.3 1)) ∧
      (∃ j : ℕ, j < i ∧ ((render app t).2)[j]? = some (Request.clearDepth 1)) := by
  intro i hi
  have hi4 : i < 4 := by
    by_contra hge
    push_neg at hge
    rw [List.getElem?_eq_none (show ((render app t).2).length ≤ i from hge)] at hi
    exact Option.noConfusion hi
  interval_cases i
  · simp [render] at hi
  · simp [render] at hi
  · simp [render] at hi
  · exact ⟨⟨0, by omega, rfl⟩, ⟨1, by omega, rfl⟩, ⟨2, by omega, rfl⟩⟩

noncomputable def appIdle : App :=
  { pso := { cull := .back, depthLessEqualWrite := true }
    vertices := []
    indices := []
    model := 1
    view := 1
    proj := 1 }

/-- Witness for C7 on a concrete state at time 0: the draw sits at
position 3 and the update and clears precede it. -/
theorem render_ordering_witness :
    ((render appIdle 0).2)[3]? = some Request.draw ∧
    ((∃ j : ℕ, j < 3 ∧
        ((render appIdle 0).2)[j]? = some (Request.updateUniform (frameLocals appIdle 0))) ∧
     (∃ j : ℕ, j < 3 ∧ ((render appIdle 0).2)[j]? = some (Request.clearColor 0.3 0.3 0.3 1)) ∧
     (∃ j : ℕ, j < 3 ∧ ((render appIdle 0).2)[j]? = some (Request.clearDepth 1))) :=
  ⟨rfl, render_ordering appIdle 0 3 rfl⟩

theorem runFrames_fields (ts : List ℝ) : ∀ a : App,
    (runFrames a ts).model = a.model ∧ (runFrames a ts).proj = a.proj ∧
    (runFrames a ts).vertices = a.vertices ∧
    (runFrames a ts).indices = a.indices ∧ (runFrames a ts).pso = a.pso := by
  induction ts with
  | nil => exact fun a => ⟨rfl, rfl, rfl, rfl, rfl⟩
  | cons t ts ih =>
    intro a
    simpa [runFrames, render] using ih ((render a t).1)

/-- Claim C8: a frame mutates only the `view` member of the state:
`render` returns the input state with just `view` replaced, and across
any sequence of frames `model` stays the identity it was initialized
to, `proj` keeps the perspective matrix computed at startup, and the
mesh buffers and pipeline state are unchanged. -/
theorem frame_effect (noise : ℚ → ℚ → ℚ) (W H : ℕ) (aspectRatio : ℝ)
    (ts : List ℝ) (app : App)
    (happ : mkApp noise W H aspectRatio = .ok app) :
    (∀ a t, (render a t).1 = { a with view := lookAtRH (eyePos t) (0, 0, 0) (0, 0, 1) }) ∧
    (runFrames app ts).model = 1 ∧
    (runFrames app ts).proj = perspectiveM 60 aspectRatio (1 / 10) 1000 ∧
    (runFrames app ts).vertices = app.vertices ∧
    (runFrames app ts).indices = app.indices ∧
    (runFrames app ts).pso = app.pso := by
  obtain ⟨hm, hp, hv, hind, hpso⟩ := runFrames_fields ts app
  have happ' : app.model = 1 ∧ app.proj = perspectiveM 60 aspectRatio (1 / 10) 1000 := by
    rw [mkApp] at happ
    rcases hWH : buildTerrainMesh noise W H 25 32 with e | mesh <;> rw [hWH] at happ
    · simp [Except.map] at happ
    · simp only [Except.map] at happ
      injection happ with h2
      subst h2
      exact ⟨rfl, rfl⟩
  refine ⟨fun a t => rfl, ?_, ?_, hv, hind, hpso⟩
  · rw [hm, happ'.1]
  · rw [hp, happ'.2]

noncomputable def appStart : App :=
  { pso := { cull := .back, depthLessEqualWrite := true }
    vertices := buildVertices (fun _ _ => 0) 1 1 25 32
    indices := buildIndices 1 1
    model := 1
    view := 1
    proj := perspectiveM 60 1 (1 / 10) 1000 }

/-- Witness for C8: startup on the 1 x 1 grid followed by one frame at
time 0 leaves `model`, `proj`, the mesh buffers and the pipeline state
unchanged. -/
theorem frame_effect_witness :
    mkApp (fun _ _ => 0) 1 1 1 = .ok appStart ∧
    (runFrames appStart [0]).model = 1 ∧
    (runFrames appStart [0]).proj = perspectiveM 60 1 (1 / 10) 1000 ∧
    (runFrames appStart [0]).vertices = appStart.vertices ∧
    (runFrames appStart [0]).indices = appStart.indices ∧
    (runFrames appStart [0]).pso = appStart.pso := by
  have h := frame_effect (fun _ _ => 0) 1 1 1 [0] appStart rfl
  exact ⟨rfl, h.2.1, h.2.2.1, h.2.2.2.1, h.2.2.2.2.1, h.2.2.2.2.2⟩

/-- Claim C9: mesh construction fails with `InvalidGridSize` exactly
when `W < 1` or `H < 1`, and on that failure the whole session aborts
with the same error: no terrain is produced and no frame of the render
loop runs. -/
theorem grid_size_error (noise : ℚ → ℚ → ℚ) (W H : ℕ)
    (aspectRatio : ℝ) (ts : List ℝ) :
    (buildTerrainMesh noise W H 25 32 = .error .InvalidGridSize ↔ W < 1 ∨ H < 1) ∧
    (runSession noise W H aspectRatio ts = .error .InvalidGridSize ↔ W < 1 ∨ H < 1) := by
  have h01 : (W < 1 ∨ H < 1) ↔ (W = 0 ∨ H = 0) := by omega
  rw [h01]
  by_cases h : W = 0 ∨ H = 0 <;>
    simp [buildTerrainMesh, runSession, mkApp, Except.map, h]

/-- Witness for C9: the 0 x 5 grid aborts startup with
`InvalidGridSize`. -/
theorem grid_size_error_witness :
    buildTerrainMesh (fun _ _ => 0) 0 5 25 32 = .error .InvalidGridSize ∧
    runSession (fun _ _ => 0) 0 5 1 [] = .error .InvalidGridSize :=
  ⟨((grid_size_error (fun _ _ => 0) 0 5 1 []).1).mpr (Or.inl (by norm_num)),
   ((grid_size_error (fun _ _ => 0) 0 5 1 []).2).mpr (Or.inl (by norm_num))⟩

end Terrain
